import Mathlib

/-!
Verification development for the workspace-aware routing and span-mapping
layer of the codetypo language server (crates/codetypo-lsp).

The Rust sources are shallowly embedded:
* `src/codetypo.rs` — `Instance::new`, `check_str`, `Ignores`, `AccumulatePosition`;
* `src/state.rs`    — `BackendState`, `update_router`, `url_path_sanitised`;
* `src/lsp.rs`      — `Backend::check_text`, `Backend::workspace_policy`.

Byte buffers are `List Nat` (each entry one byte), paths and route keys are
`List Char`, machine integer truncation (`as u32`) is explicit `% 2^32`,
and Rust panics / `Result` errors are `Except` values.  External
collaborators (the `codetypo` matcher, the `regex` engine, the glob
compiler of the `ignore` crate, and the config engine) are parameters of
the embedding: the matcher's output is a list of typos, the regex engine's
output is a list of byte ranges, and glob patterns are abstract
characteristic functions packaged with the data the source code attaches
to them.
-/

namespace CodetypoLsp

abbrev Chars := List Char

/-- Truncating cast to `u32` (`as u32` in `lsp.rs`). -/
def u32cast (n : Nat) : Nat := n % 4294967296

/-- Number of UTF-16 code units of a Unicode code point
(Rust `char::len_utf16`): one unit below `0x10000`, two otherwise. -/
def utf16Width (cp : Nat) : Nat := if cp < 65536 then 1 else 2

/-- Is the byte a UTF-8 continuation byte (`0x80..=0xBF`)? -/
def isCont (b : Nat) : Bool := 128 ≤ b && b ≤ 191

/-- Valid second byte of a three-byte UTF-8 sequence with lead `b`
(Rust `core::str` validation: rejects overlongs and surrogates). -/
def validSecondOf3 (b b2 : Nat) : Bool :=
  if b = 224 then 160 ≤ b2 && b2 ≤ 191
  else if b = 237 then 128 ≤ b2 && b2 ≤ 159
  else 128 ≤ b2 && b2 ≤ 191

/-- Valid second byte of a four-byte UTF-8 sequence with lead `b`. -/
def validSecondOf4 (b b2 : Nat) : Bool :=
  if b = 240 then 144 ≤ b2 && b2 ≤ 191
  else if b = 244 then 128 ≤ b2 && b2 ≤ 143
  else 128 ≤ b2 && b2 ≤ 191

/-- Lossy UTF-8 decoding of a byte list into a list of code points,
following Rust `String::from_utf8_lossy`: maximal invalid subparts are
replaced by U+FFFD (`65533`), resuming after the number of bytes given by
`Utf8Error::error_len` (1 after a bad lead or bad second byte, 2 after a
valid two-byte head of a three-byte sequence, 3 after a valid three-byte
head of a four-byte sequence; a truncated sequence at the end of input
yields a single replacement). -/
def utf8DecodeLossy : List Nat → List Nat
  | [] => []
  | b :: rest =>
    if b < 128 then b :: utf8DecodeLossy rest
    else if 194 ≤ b && b ≤ 223 then
      match rest with
      | [] => [65533]
      | b2 :: rest2 =>
        if isCont b2 then ((b - 192) * 64 + (b2 - 128)) :: utf8DecodeLossy rest2
        else 65533 :: utf8DecodeLossy (b2 :: rest2)
    else if 224 ≤ b && b ≤ 239 then
      match rest with
      | [] => [65533]
      | b2 :: rest2 =>
        if validSecondOf3 b b2 then
          match rest2 with
          | [] => [65533]
          | b3 :: rest3 =>
            if isCont b3 then
              ((b - 224) * 4096 + (b2 - 128) * 64 + (b3 - 128)) :: utf8DecodeLossy rest3
            else 65533 :: utf8DecodeLossy (b3 :: rest3)
        else 65533 :: utf8DecodeLossy (b2 :: rest2)
    else if 240 ≤ b && b ≤ 244 then
      match rest with
      | [] => [65533]
      | b2 :: rest2 =>
        if validSecondOf4 b b2 then
          match rest2 with
          | [] => [65533]
          | b3 :: rest3 =>
            if isCont b3 then
              match rest3 with
              | [] => [65533]
              | b4 :: rest4 =>
                if isCont b4 then
                  ((b - 240) * 262144 + (b2 - 128) * 4096 + (b3 - 128) * 64 + (b4 - 128)) ::
                    utf8DecodeLossy rest4
                else 65533 :: utf8DecodeLossy (b4 :: rest4)
            else 65533 :: utf8DecodeLossy (b3 :: rest3)
        else 65533 :: utf8DecodeLossy (b2 :: rest2)
    else 65533 :: utf8DecodeLossy rest

/-- Byte length of a string's UTF-8 encoding (Rust `str::len`). -/
def strByteLen (s : String) : Nat := s.utf8ByteSize

/-- `codetypo.rs` (`Ignores`, copied from codetypo-cli `file.rs`): the
blocks are the byte ranges of every regex match of every ignore pattern
against the document; the regex engine is external, so the blocks are
taken as given.  `rangeContains` is `std::ops::Range::contains`. -/
def rangeContains (block : Nat × Nat) (x : Nat) : Bool :=
  decide (block.1 ≤ x) && decide (x < block.2)

/-- `Ignores::is_ignored`: a candidate span (half-open byte range) is
ignored iff some block contains its start offset or contains its end
offset minus one; the subtraction is `usize::saturating_sub`, which `Nat`
subtraction models exactly. -/
def Ignores.is_ignored (blocks : List (Nat × Nat)) (span : Nat × Nat) : Bool :=
  blocks.any (fun block => rangeContains block span.1 || rangeContains block (span.2 - 1))

/-- Errors of the embedded `AccumulatePosition::pos`: `assertFailed` is
the `assert!(self.last_offset <= byte_offset)` panic, `outOfBounds` the
slice panic for an offset beyond the end of the buffer. -/
inductive PosErr where
  | assertFailed
  | outOfBounds
deriving DecidableEq

/-- `codetypo.rs`: `AccumulatePosition { line_num, line_pos, last_offset }`. -/
structure AccumulatePosition where
  line_num : Nat
  line_pos : Nat
  last_offset : Nat
deriving DecidableEq

/-- `AccumulatePosition::new`: LSP positions are zero-based. -/
def AccumulatePosition.new : AccumulatePosition :=
  { line_num := 0, line_pos := 0, last_offset := 0 }

/-- Index of the last occurrence of a byte in a byte list
(bstr `rfind_byte`). -/
def lastIdxOf (b : Nat) : List Nat → Option Nat
  | [] => Option.none
  | a :: as =>
    match lastIdxOf b as with
    | Option.some i => Option.some (i + 1)
    | Option.none => if a == b then Option.some 0 else Option.none

/-- Start of the line containing `off`: one past the last newline strictly
before `off` (`buffer[0..byte_offset].rfind_byte(b'\n').map(|s| s + 1)`),
or `0` when there is none. -/
def lineStart (buffer : List Nat) (off : Nat) : Nat :=
  match lastIdxOf 10 (buffer.take off) with
  | Option.some i => i + 1
  | Option.none => 0

/-- Number of newline bytes in `buffer[a..b]`
(`slice.find_iter(b"\n").count()`). -/
def newlinesBetween (buffer : List Nat) (a b : Nat) : Nat :=
  (((buffer.take b).drop a).filter (fun x => x == 10)).length

/-- The UTF-16 column of `off`: the total UTF-16 width of the characters
lossily decoded between the start of `off`'s line and `off`. -/
def specColumn (buffer : List Nat) (off : Nat) : Nat :=
  ((utf8DecodeLossy ((buffer.take off).drop (lineStart buffer off))).map utf16Width).sum

/-- `AccumulatePosition::pos`: asserts monotonicity of offsets, counts the
newlines between the previous watermark and the target offset to advance
the line number, rescans the whole prefix for the current line start, and
sums the UTF-16 widths of the lossily decoded characters of the current
line up to the offset.  Both panics of the Rust code (the `assert!` and
the out-of-range slice) are explicit error values. -/
def AccumulatePosition.pos (self : AccumulatePosition) (buffer : List Nat)
    (byte_offset : Nat) : Except PosErr (AccumulatePosition × Nat × Nat) :=
  if self.last_offset ≤ byte_offset then
    if byte_offset ≤ buffer.length then
      let slice := (buffer.take byte_offset).drop self.last_offset
      let newlines := (slice.filter (fun x => x == 10)).length
      let line_num := self.line_num + newlines
      let line_start := lineStart buffer byte_offset
      let before_typo := utf8DecodeLossy ((buffer.take byte_offset).drop line_start)
      let line_pos := (before_typo.map utf16Width).sum
      Except.ok ({ line_num := line_num, line_pos := line_pos, last_offset := byte_offset },
        line_num, line_pos)
    else Except.error PosErr.outOfBounds
  else Except.error PosErr.assertFailed

/-- Feeding a sequence of offsets to one accumulator, collecting the
returned (line, column) pairs. -/
def posGo (buffer : List Nat) : AccumulatePosition → List Nat →
    Except PosErr (List (Nat × Nat))
  | _, [] => Except.ok []
  | st, o :: os =>
    match AccumulatePosition.pos st buffer o with
    | Except.error e => Except.error e
    | Except.ok (st2, l, p) =>
      match posGo buffer st2 os with
      | Except.error e => Except.error e
      | Except.ok rest => Except.ok ((l, p) :: rest)

/-- A fresh accumulator fed the whole offset sequence. -/
def posList (buffer : List Nat) (offs : List Nat) : Except PosErr (List (Nat × Nat)) :=
  posGo buffer AccumulatePosition.new offs

/-- `codetypo::Status` (external type): `Invalid`, `Corrections(list)`,
`Valid` — the spec's Disallowed / Corrections / Accepted. -/
inductive Status where
  | invalid
  | corrections (cs : List String)
  | valid
deriving DecidableEq

/-- `codetypo::Typo` (external type): the matched text, its byte offset
in the document, and the outcome. -/
structure Typo where
  typo : String
  byte_offset : Nat
  corrections : Status
deriving DecidableEq

/-- `Typo::span()`: the half-open byte range
`byte_offset..byte_offset + typo.len()`. -/
def typoSpan (t : Typo) : Nat × Nat := (t.byte_offset, t.byte_offset + strByteLen t.typo)

/-- `codetypo.rs` `check_str`: drops matches hitting an ignore block, then
threads one accumulator over the surviving matches in order.  The external
matcher's output is the `typos` list (document order), the external regex
engine's output is the `blocks` list. -/
def check_str_go (buffer : List Nat) (blocks : List (Nat × Nat)) :
    AccumulatePosition → List Typo → Except PosErr (List (Typo × Nat × Nat))
  | _, [] => Except.ok []
  | accum, t :: ts =>
    if Ignores.is_ignored blocks (typoSpan t) then check_str_go buffer blocks accum ts
    else
      match AccumulatePosition.pos accum buffer t.byte_offset with
      | Except.error e => Except.error e
      | Except.ok (accum2, line_num, line_pos) =>
        match check_str_go buffer blocks accum2 ts with
        | Except.error e => Except.error e
        | Except.ok rest => Except.ok ((t, line_num, line_pos) :: rest)

/-- `check_str` with a fresh `AccumulatePosition` (`AccumulatePosition::new()`). -/
def check_str (buffer : List Nat) (blocks : List (Nat × Nat)) (typos : List Typo) :
    Except PosErr (List (Typo × Nat × Nat)) :=
  check_str_go buffer blocks AccumulatePosition.new typos

/-- LSP `Position` as built in `check_text`: both coordinates go through
`as u32`. -/
structure Position where
  line : Nat
  character : Nat
deriving DecidableEq

/-- LSP `Range`; the LSP field `end` is a Lean keyword, spelled `stop`. -/
structure Range where
  start : Position
  stop : Position
deriving DecidableEq

/-- The emitted diagnostic record: range, severity, source, message, and
the corrections payload stored in `data`. -/
structure Diagnostic where
  range : Range
  severity : Option Nat
  source : Option String
  message : String
  data : Option (List String)
deriving DecidableEq

/-- The range built in `check_text`:
`Range::new(Position::new(line_num as u32, line_pos as u32),
Position::new(line_num as u32, (line_pos + typo.typo.len()) as u32))`. -/
def mkRange (line_num line_pos len : Nat) : Range :=
  { start := { line := u32cast line_num, character := u32cast line_pos },
    stop := { line := u32cast line_num, character := u32cast (line_pos + len) } }

/-- Message for `Status::Corrections`: comma-joined backtick-quoted
suggestions (`itertools::join`). -/
def correctionsMessage (t : String) (cs : List String) : String :=
  "`" ++ t ++ "` should be " ++ String.intercalate ", " (cs.map (fun s => "`" ++ s ++ "`"))

/-- The per-match translation step of `check_text` (lsp.rs lines 282-307):
`Invalid` and `Corrections` become diagnostics; `Valid` hits
`panic!("unexpected codetypo::Status::Valid")`, modelled as an error. -/
def translate_typo (severity : Option Nat) (t : Typo) (line_num line_pos : Nat) :
    Except String Diagnostic :=
  match t.corrections with
  | Status.invalid =>
    Except.ok
      { range := mkRange line_num line_pos (strByteLen t.typo)
        severity := severity
        source := Option.some "codetypo"
        message := "`" ++ t.typo ++ "` is disallowed"
        data := Option.none }
  | Status.corrections cs =>
    Except.ok
      { range := mkRange line_num line_pos (strByteLen t.typo)
        severity := severity
        source := Option.some "codetypo"
        message := correctionsMessage t.typo cs
        data := Option.some cs }
  | Status.valid => Except.error "unexpected codetypo::Status::Valid"

/-- Translating every surviving match in order; the first panic aborts the
whole check. -/
def translate_all (severity : Option Nat) :
    List (Typo × Nat × Nat) → Except String (List Diagnostic)
  | [] => Except.ok []
  | (t, l, p) :: rest =>
    match translate_typo severity t l p with
    | Except.error e => Except.error e
    | Except.ok d =>
      match translate_all severity rest with
      | Except.error e => Except.error e
      | Except.ok ds => Except.ok (d :: ds)

/-- `Backend::check_text` after the policy lookup: run `check_str`, then
translate each surviving match into a diagnostic.  (The Rust iterator
interleaves position accumulation and translation element by element; the
staged composition here produces the same diagnostics and errors exactly
when the iterator chain panics.) -/
def check_text (severity : Option Nat) (buffer : List Nat) (blocks : List (Nat × Nat))
    (typos : List Typo) : Except String (List Diagnostic) :=
  match check_str buffer blocks typos with
  | Except.error _ => Except.error "position accumulator invariant violated"
  | Except.ok items => translate_all severity items

/-- A compiled glob of the `ignore` crate, abstracted to its
characteristic function on (sanitised, root-relative agnostic) paths.  The
glob syntax and compiler are external collaborators; every claim about
them quantifies over this function. -/
structure GlobPat where
  is_match : Chars → Bool

/-- The gitignore matcher wrapped by `ignore::overrides::Override`: an
ordered list of lines, each a glob together with its whitelist flag (a
gitignore line `!glob` has the flag set).  Later lines take precedence. -/
abbrev Gitignore := List (Bool × GlobPat)

/-- Result type of gitignore/override matching (`ignore::Match`). -/
inductive GMatch where
  | nomatch
  | ignore
  | whitelist
deriving DecidableEq, BEq

/-- `Gitignore::matched`: the match of highest precedence — the last line
whose glob matches — decides; its whitelist flag distinguishes
`Whitelist` from `Ignore`. -/
def gitignoreMatched (gi : Gitignore) (path : Chars) : GMatch :=
  match (gi.filter (fun g => g.2.is_match path)).getLast? with
  | Option.none => GMatch.nomatch
  | Option.some g => if g.1 then GMatch.whitelist else GMatch.ignore

/-- `ignore::Match::invert`. -/
def invertMatch : GMatch → GMatch
  | GMatch.nomatch => GMatch.nomatch
  | GMatch.ignore => GMatch.whitelist
  | GMatch.whitelist => GMatch.ignore

/-- `Override::num_whitelists` = the wrapped gitignore's `num_ignores`,
the number of lines without the whitelist flag. -/
def overrideNumWhitelists (gi : Gitignore) : Nat := (gi.filter (fun g => !g.1)).length

/-- `Override::matched`: empty override matches nothing; otherwise invert
the gitignore match; an unmatched non-directory path is ignored when the
override holds at least one whitelist glob. -/
def overrideMatched (gi : Gitignore) (path : Chars) (is_dir : Bool) : GMatch :=
  if gi.isEmpty then GMatch.nomatch
  else
    let m := invertMatch (gitignoreMatched gi path)
    if m == GMatch.nomatch && decide (0 < overrideNumWhitelists gi) && !is_dir then
      GMatch.ignore
    else m

/-- `.matched(&path, false).is_ignore()` as used by `workspace_policy`. -/
def isIgnoreMatch (gi : Gitignore) (path : Chars) : Bool :=
  overrideMatched gi path false == GMatch.ignore

/-- External collaborators of `Instance::new`, bundled: the reserved
configuration file names (`codetypo_cli::config::SUPPORTED_FILE_NAMES`),
the glob compiled from one such literal name, the compiled
`extend-exclude` globs the merged policy declares for a directory, and
whether construction fails for a directory (malformed config file,
unreadable directory, or invalid exclude pattern). -/
structure Env where
  supportedFileNames : List Chars
  nameGlob : Chars → GlobPat
  extendExclude : Chars → List GlobPat
  instanceNewFails : Chars → Bool

/-- The override built in `Instance::new`: one `!name` line per reserved
configuration file name, then one `!pattern` line per extend-exclude
pattern, in that order.  A builder line `!X` is a gitignore whitelist
line, so every line carries the whitelist flag. -/
def instanceGitignore (env : Env) (path : Chars) : Gitignore :=
  (env.supportedFileNames.map (fun f => (true, env.nameGlob f)))
    ++ ((env.extendExclude path).map (fun p => (true, p)))

/-- `codetypo.rs` `Instance`: the exclude override plus the config engine;
the engine's policy lookup is external, so the instance is represented by
its root directory and its override. -/
structure Instance where
  root : Chars
  ignores : Gitignore

/-- `Instance::new(path, config)`: config loading, `init_dir`, and glob
compilation may fail (collapsed into `Env.instanceNewFails`); on success
the instance holds the override described above. -/
def Instance.new (env : Env) (path : Chars) (config : Option Chars) :
    Except String Instance :=
  if env.instanceNewFails path then Except.error "configuration error"
  else Except.ok { root := path, ignores := instanceGitignore env path }

/-- A location URI: scheme plus hierarchical path component (the path is
kept as a character list; percent-decoding of `to_file_path` is not
modelled — the examples use paths where it is the identity). -/
structure Url where
  scheme : String
  path : Chars

/-- `Url::to_file_path`: succeeds exactly for `file` scheme locations. -/
def uriToFilePath (u : Url) : Option Chars :=
  if u.scheme = "file" then Option.some u.path else Option.none

/-- `state.rs` `url_path_sanitised`: replace every colon in the URI path
by `%3A`, because matchit treats colons as wildcard markers. -/
def replaceColons : Chars → Chars
  | [] => []
  | c :: cs => if c = ':' then '%' :: '3' :: 'A' :: replaceColons cs else c :: replaceColons cs

/-- `url_path_sanitised(&url)` = `url.path().replace(':', "%3A")`. -/
def url_path_sanitised (u : Url) : Chars := replaceColons u.path

/-- `tower_lsp::lsp_types::WorkspaceFolder`. -/
structure WorkspaceFolder where
  uri : Url
  name : String

/-- The matchit route table: route strings (each of the form
`prefix/{*p}`) paired with their policy instances, in insertion order. -/
abbrev Router := List (Chars × Instance)

/-- The `{*p}` catch-all suffix every inserted route ends with. -/
def catchAllSuffix : Chars := "/{*p}".toList

/-- Does a route match a path (matchit semantics restricted to the route
shapes this server registers)?  A route `P/{*p}` matches exactly the paths
of the form `P/rest` with `rest` nonempty — the catch-all consumes at
least one character, which is why `at("/")` fails on the table holding
only `/{*p}`. -/
def routeMatches (route path : Chars) : Bool :=
  if 5 ≤ route.length && decide (route.drop (route.length - 5) = catchAllSuffix) then
    List.isPrefixOf (route.take (route.length - 5) ++ [ '/' ]) path &&
      decide (route.length - 5 + 1 < path.length)
  else route == path

/-- Longest registered prefix wins: matchit's radix tree prefers the
deepest static prefix before falling back to shallower catch-alls. -/
def pickLongest : List (Chars × Instance) → Option (Chars × Instance)
  | [] => Option.none
  | e :: es =>
    match pickLongest es with
    | Option.none => Option.some e
    | Option.some e2 => if e.1.length < e2.1.length then Option.some e2 else Option.some e

/-- `Router::at`: the instance of the most specific matching route, or a
lookup error (`Option.none`) when no route matches. -/
def routerAt (r : Router) (path : Chars) : Option Instance :=
  (pickLongest (r.filter (fun e => routeMatches e.1 path))).map Prod.snd

/-- `Router::insert` via the `RouterExt::insert_instance` extension:
construct the instance for the folder path, then insert it under the
route; inserting an already-registered route is a matchit insert error. -/
def insert_instance (env : Env) (r : Router) (route : Chars) (path : Chars)
    (config : Option Chars) : Except String Router :=
  match Instance.new env path config with
  | Except.error e => Except.error e
  | Except.ok inst =>
    if r.any (fun q => q.1 == route) then Except.error "route conflict"
    else Except.ok (r ++ [(route, inst)])

/-- `state.rs` `BackendState`. -/
structure BackendState where
  severity : Option Nat
  config : Option Chars
  workspace_folders : List WorkspaceFolder
  router : Router

/-- The folder loop of `update_router` followed by the non-Windows
catch-all insertion (`route = "/{*p}"`, path `/`): each folder URI is
converted to a file path (error if not convertible), its route is the
sanitised URI path plus `/{*p}`, and each insertion mutates the router in
place — so the router argument carried through is exactly the partially
rebuilt table the Rust `self.router` holds, and it is returned alongside
any error. -/
def updateRouterGo (env : Env) (config : Option Chars) :
    List WorkspaceFolder → Router → Option String × Router
  | [], r =>
    match insert_instance env r catchAllSuffix [ '/' ] config with
    | Except.error e => (Option.some e, r)
    | Except.ok r2 => (Option.none, r2)
  | f :: fs, r =>
    match uriToFilePath f.uri with
    | Option.none => (Option.some "cannot convert uri to file path", r)
    | Option.some path =>
      match insert_instance env r (url_path_sanitised f.uri ++ catchAllSuffix) path config with
      | Except.error e => (Option.some e, r)
      | Except.ok r2 => updateRouterGo env config fs r2

/-- `BackendState::update_router`: `self.router = Router::new()` first,
then one route per folder plus the catch-all.  The returned pair is the
Rust `Result` alongside the mutated state. -/
def update_router (env : Env) (st : BackendState) : Option String × BackendState :=
  let res := updateRouterGo env st.config st.workspace_folders []
  (res.1, { st with router := res.2 })

/-- `BackendState::set_workspace_folders`: replace the folder list, then
rebuild the router. -/
def set_workspace_folders (env : Env) (st : BackendState)
    (workspace_folders : List WorkspaceFolder) : Option String × BackendState :=
  update_router env { st with workspace_folders := workspace_folders }

/-- What `workspace_policy` hands back to `check_text`: the process-wide
default policy, or the per-file policy resolved from a routed instance's
engine (the engine lookup itself is external, so the instance is
returned). -/
inductive ResolvedPolicy where
  | defaultPolicy
  | folderPolicy (inst : Instance)

/-- `Backend::workspace_policy`: non-file locations and route lookup
failures fall back to the default policy; a routed document whose path the
instance's override marks as ignore is skipped (`None`); otherwise the
instance's policy applies. -/
def workspace_policy (st : BackendState) (uri : Url) : Option ResolvedPolicy :=
  match uriToFilePath uri with
  | Option.none => Option.some ResolvedPolicy.defaultPolicy
  | Option.some path =>
    match routerAt st.router (url_path_sanitised uri) with
    | Option.none => Option.some ResolvedPolicy.defaultPolicy
    | Option.some value =>
      if isIgnoreMatch value.ignores path then Option.none
      else Option.some (ResolvedPolicy.folderPolicy value)

/-! Concrete fixtures used by witnesses and counterexamples. -/

/-- A concrete glob semantics for a literal file name: a gitignore pattern
without a slash matches the path's basename at any depth. -/
def basenameGlob (n : Chars) : GlobPat :=
  { is_match := fun s => List.isSuffixOf ( '/' :: n) s }

/-- A concrete environment: one reserved configuration file name, no user
extend-exclude patterns, no construction failures. -/
def env0 : Env :=
  { supportedFileNames := ["codetypo.toml".toList]
    nameGlob := basenameGlob
    extendExclude := fun _ => []
    instanceNewFails := fun _ => false }

/-- The initial backend state (`BackendState::default()`). -/
def st0 : BackendState :=
  { severity := Option.none, config := Option.none, workspace_folders := [], router := [] }

def dir0 : Chars := "/proj".toList

/-- The instance `Instance::new(env0, "/proj", None)` returns. -/
def inst0 : Instance := { root := dir0, ignores := instanceGitignore env0 dir0 }

/-- A state whose router routes everything to `inst0` via the catch-all. -/
def st1 : BackendState := { st0 with router := [(catchAllSuffix, inst0)] }

/-- A document location whose path is a reserved configuration file name. -/
def uri1 : Url := { scheme := "file", path := "/proj/codetypo.toml".toList }

def folderA : WorkspaceFolder :=
  { uri := { scheme := "file", path := "/a".toList }, name := "a" }

def folderAB : WorkspaceFolder :=
  { uri := { scheme := "file", path := "/a/b".toList }, name := "b" }

/-- A workspace folder whose URI is not convertible to a file path. -/
def folderBad : WorkspaceFolder :=
  { uri := { scheme := "untitled", path := "/b".toList }, name := "b" }

def routeA : Chars := "/a/{*p}".toList

def routeAB : Chars := "/a/b/{*p}".toList

def doc9 : Chars := "/a/b/file.txt".toList

/-- Buffer `"ab\n😀x"`: U+1F600 occupies four UTF-8 bytes and two UTF-16
code units; `x` sits at byte offset 7. -/
def bufWide : List Nat := [97, 98, 10, 240, 159, 152, 128, 120]

/-- Buffer `"teh"`. -/
def bufTeh : List Nat := [116, 101, 104]

def typoValid : Typo := { typo := "teh", byte_offset := 0, corrections := Status.valid }

def typoInvalid : Typo := { typo := "teh", byte_offset := 0, corrections := Status.invalid }

/-- The diagnostic `check_text` emits for `typoInvalid` in `bufTeh`. -/
def diagTeh : Diagnostic :=
  { range := { start := { line := 0, character := 0 }, stop := { line := 0, character := 3 } }
    severity := Option.none
    source := Option.some "codetypo"
    message := "`teh` is disallowed"
    data := Option.none }

/-! Helper lemmas. -/

/-- Unfolding `pos` on an in-bounds, monotone offset. -/
theorem pos_eq_ok (st : AccumulatePosition) (buffer : List Nat) (o : Nat)
    (h1 : st.last_offset ≤ o) (h2 : o ≤ buffer.length) :
    AccumulatePosition.pos st buffer o =
      Except.ok ({ line_num := st.line_num + newlinesBetween buffer st.last_offset o,
                   line_pos := specColumn buffer o, last_offset := o },
        st.line_num + newlinesBetween buffer st.last_offset o, specColumn buffer o) := by
  unfold AccumulatePosition.pos
  rw [if_pos h1, if_pos h2]
  rfl

/-- Invariant of the accumulator over a monotone in-bounds offset
sequence, generalized over the starting state. -/
theorem posGo_spec (buffer : List Nat) :
    ∀ (offs : List Nat) (st : AccumulatePosition),
      List.Chain' (fun a b => a ≤ b) (st.last_offset :: offs) →
      (∀ o ∈ offs, o ≤ buffer.length) →
      ∃ res, posGo buffer st offs = Except.ok res ∧
        List.Chain' (fun a b => a ≤ b) (st.line_num :: res.map Prod.fst) ∧
        res.map Prod.snd = offs.map (specColumn buffer) := by
  intro offs
  induction offs with
  | nil =>
    intro st _ _
    exact ⟨[], rfl, by simp, rfl⟩
  | cons o os ih =>
    intro st hc hb
    rw [List.chain'_cons] at hc
    have h2 : o ≤ buffer.length := hb o (List.mem_cons_self o os)
    obtain ⟨res, hres, hchain, hsnd⟩ :=
      ih { line_num := st.line_num + newlinesBetween buffer st.last_offset o,
           line_pos := specColumn buffer o, last_offset := o }
        hc.2 (fun x hx => hb x (List.mem_cons_of_mem o hx))
    refine ⟨(st.line_num + newlinesBetween buffer st.last_offset o,
        specColumn buffer o) :: res, ?_, ?_, ?_⟩
    · simp only [posGo, pos_eq_ok st buffer o hc.1 h2, hres]
    · rw [List.map_cons, List.chain'_cons]
      exact ⟨Nat.le_add_right _ _, hchain⟩
    · simp [hsnd]

/-! Claim theorems. -/

/-- C4: for every buffer and every non-decreasing in-bounds offset
sequence fed to one fresh accumulator, every call succeeds, the returned
line numbers are non-decreasing, and each returned column is exactly the
sum of the UTF-16 widths of the characters lossily decoded between the
start of the offset's line (one past the last newline strictly before the
offset) and the offset itself. -/
theorem c4_position_monotone (buffer : List Nat) (offs : List Nat)
    (hmono : List.Chain' (fun a b => a ≤ b) offs)
    (hbound : ∀ o ∈ offs, o ≤ buffer.length) :
    ∃ res, posList buffer offs = Except.ok res ∧
      List.Chain' (fun a b => a ≤ b) (res.map Prod.fst) ∧
      res.map Prod.snd = offs.map (specColumn buffer) := by
  obtain ⟨res, h1, h2, h3⟩ := posGo_spec buffer offs AccumulatePosition.new
    (by rw [List.chain'_cons']; exact ⟨fun y _ => Nat.zero_le y, hmono⟩) hbound
  exact ⟨res, h1, h2.tail, h3⟩

/-- C4 witness: the sequence `[0, 3, 7]` on `"ab\n😀x"`; the wide
character before offset 7 contributes two UTF-16 units to the column. -/
theorem c4_witness :
    specColumn bufWide 7 = 2 ∧
    (∃ res, posList bufWide [0, 3, 7] = Except.ok res ∧
      List.Chain' (fun a b => a ≤ b) (res.map Prod.fst) ∧
      res.map Prod.snd = [0, 3, 7].map (specColumn bufWide)) :=
  ⟨by decide, c4_position_monotone bufWide [0, 3, 7] (by simp) (by decide)⟩

/-- C5: on the buffer `"ab\ncd"`, a fresh accumulator returns `(0,0)`,
`(1,0)`, `(1,2)` for the offsets `0`, `3`, `5`. -/
theorem c5_example :
    posList [97, 98, 10, 99, 100] [0, 3, 5] = Except.ok [(0, 0), (1, 0), (1, 2)] := rfl

/-- C6: `is_ignored` returns true iff some ignore block contains the
span's start offset or contains its end offset minus one (saturating), a
two-point test rather than full interval overlap. -/
theorem c6_is_ignored_iff (blocks : List (Nat × Nat)) (s e : Nat) :
    Ignores.is_ignored blocks (s, e) = true ↔
      ∃ b ∈ blocks, (b.1 ≤ s ∧ s < b.2) ∨ (b.1 ≤ e - 1 ∧ e - 1 < b.2) := by
  simp [Ignores.is_ignored, rangeContains, List.any_eq_true, Bool.or_eq_true,
    Bool.and_eq_true, decide_eq_true_eq]

/-- C7: `pos` fails with the assertion error exactly when the offset is
strictly below the watermark; offsets at or above the watermark never
trigger the assertion. -/
theorem c7_assert_iff (st : AccumulatePosition) (buffer : List Nat) (off : Nat) :
    AccumulatePosition.pos st buffer off = Except.error PosErr.assertFailed ↔
      off < st.last_offset := by
  unfold AccumulatePosition.pos
  by_cases h1 : st.last_offset ≤ off
  · rw [if_pos h1]
    by_cases h2 : off ≤ buffer.length
    · rw [if_pos h2]
      simp only [Except.ok.injEq]
      constructor
      · intro h; exact absurd h (by simp)
      · intro h; omega
    · rw [if_neg h2]
      simp only [Except.error.injEq]
      constructor
      · intro h; exact absurd h (by simp)
      · intro h; omega
  · rw [if_neg h1]
    simp only [Except.error.injEq, true_iff]
    omega

/-- `translate_typo` only fails on `Status::Valid`, and always with the
panic message of `lsp.rs`. -/
theorem translate_typo_error_msg (severity : Option Nat) (t : Typo) (l p : Nat) (e : String)
    (h : translate_typo severity t l p = Except.error e) :
    e = "unexpected codetypo::Status::Valid" ∧ t.corrections = Status.valid := by
  unfold translate_typo at h
  cases hc : t.corrections with
  | invalid => rw [hc] at h; cases h
  | corrections cs => rw [hc] at h; cases h
  | valid => rw [hc] at h; injection h with h2; exact ⟨h2.symm, rfl⟩

/-- A successful `translate_typo` implies the outcome was not `Valid`. -/
theorem translate_typo_ok_not_valid (severity : Option Nat) (t : Typo) (l p : Nat)
    (d : Diagnostic) (h : translate_typo severity t l p = Except.ok d) :
    t.corrections ≠ Status.valid := by
  intro hv
  rw [translate_typo, hv] at h
  cases h

/-- A successful `translate_typo` fixes the diagnostic's range. -/
theorem translate_typo_ok_range (severity : Option Nat) (t : Typo) (l p : Nat)
    (d : Diagnostic) (h : translate_typo severity t l p = Except.ok d) :
    d.range = mkRange l p (strByteLen t.typo) := by
  unfold translate_typo at h
  cases hc : t.corrections with
  | invalid => rw [hc] at h; injection h with h2; rw [← h2]
  | corrections cs => rw [hc] at h; injection h with h2; rw [← h2]
  | valid => rw [hc] at h; cases h

/-- If translating every surviving match succeeded, none was `Valid`. -/
theorem translate_all_ok_no_valid (severity : Option Nat) :
    ∀ (items : List (Typo × Nat × Nat)) (ds : List Diagnostic),
      translate_all severity items = Except.ok ds →
      ∀ x ∈ items, (x : Typo × Nat × Nat).1.corrections ≠ Status.valid := by
  intro items
  induction items with
  | nil => intro ds _ x hx; cases hx
  | cons it rest ih =>
    intro ds h x hx
    obtain ⟨t, l, p⟩ := it
    simp only [translate_all] at h
    cases ht : translate_typo severity t l p with
    | error e => rw [ht] at h; cases h
    | ok d =>
      rw [ht] at h
      cases hrest : translate_all severity rest with
      | error e => rw [hrest] at h; cases h
      | ok ds2 =>
        rcases List.mem_cons.mp hx with he | he
        · subst he; exact translate_typo_ok_not_valid severity t l p d ht
        · exact ih ds2 hrest x he

/-- A surviving `Valid` match makes the translation step fail with the
panic message. -/
theorem translate_all_valid_error (severity : Option Nat) :
    ∀ (items : List (Typo × Nat × Nat)),
      (∃ x ∈ items, (x : Typo × Nat × Nat).1.corrections = Status.valid) →
      translate_all severity items = Except.error "unexpected codetypo::Status::Valid" := by
  intro items
  induction items with
  | nil =>
    intro hex
    obtain ⟨x, hx, _⟩ := hex
    cases hx
  | cons it rest ih =>
    intro hex
    obtain ⟨x, hx, hv⟩ := hex
    obtain ⟨t, l, p⟩ := it
    rcases List.mem_cons.mp hx with he | he
    · have hv2 : t.corrections = Status.valid := by rw [he] at hv; exact hv
      simp only [translate_all]
      rw [show translate_typo severity t l p = Except.error "unexpected codetypo::Status::Valid"
        from by rw [translate_typo, hv2]]
    · have htail := ih ⟨x, he, hv⟩
      simp only [translate_all, htail]
      cases ht : translate_typo severity t l p with
      | error e => exact ((translate_typo_error_msg severity t l p e ht).1 ▸ rfl)
      | ok d => rfl

/-- Every emitted diagnostic comes from a successful per-match
translation of some surviving match. -/
theorem translate_all_ok_mem (severity : Option Nat) :
    ∀ (items : List (Typo × Nat × Nat)) (ds : List Diagnostic),
      translate_all severity items = Except.ok ds →
      ∀ d ∈ ds, ∃ x ∈ items,
        translate_typo severity (x : Typo × Nat × Nat).1 x.2.1 x.2.2 = Except.ok d := by
  intro items
  induction items with
  | nil =>
    intro ds h d hd
    cases h
    cases hd
  | cons it rest ih =>
    intro ds h d hd
    obtain ⟨t, l, p⟩ := it
    simp only [translate_all] at h
    cases ht : translate_typo severity t l p with
    | error e => rw [ht] at h; cases h
    | ok d0 =>
      rw [ht] at h
      cases hrest : translate_all severity rest with
      | error e => rw [hrest] at h; cases h
      | ok ds2 =>
        rw [hrest] at h
        injection h with h2
        rw [← h2] at hd
        rcases List.mem_cons.mp hd with he | he
        · exact ⟨(t, l, p), List.mem_cons_self _ _, by rw [ht, he]⟩
        · obtain ⟨x, hxm, hxok⟩ := ih ds2 hrest d he
          exact ⟨x, List.mem_cons_of_mem _ hxm, hxok⟩

/-- Every unignored match of the input reappears (with its computed
position) among the surviving items of a successful `check_str`. -/
theorem check_str_go_surviving (buffer : List Nat) (blocks : List (Nat × Nat)) :
    ∀ (typos : List Typo) (accum : AccumulatePosition) (items : List (Typo × Nat × Nat)),
      check_str_go buffer blocks accum typos = Except.ok items →
      ∀ t ∈ typos, Ignores.is_ignored blocks (typoSpan t) = false →
        ∃ l p, (t, l, p) ∈ items := by
  intro typos
  induction typos with
  | nil => intro accum items _ t ht; cases ht
  | cons t0 ts ih =>
    intro accum items h t ht hni
    simp only [check_str_go] at h
    by_cases hig : Ignores.is_ignored blocks (typoSpan t0) = true
    · rw [if_pos hig] at h
      rcases List.mem_cons.mp ht with he | he
      · rw [he] at hni; rw [hni] at hig; cases hig
      · exact ih accum items h t he hni
    · rw [if_neg hig] at h
      cases hp : AccumulatePosition.pos accum buffer t0.byte_offset with
      | error e => rw [hp] at h; cases h
      | ok trip =>
        obtain ⟨a2, l, p⟩ := trip
        rw [hp] at h
        dsimp only at h
        cases hrest : check_str_go buffer blocks a2 ts with
        | error e => rw [hrest] at h; cases h
        | ok rest =>
          rw [hrest] at h
          injection h with h2
          rcases List.mem_cons.mp ht with he | he
          · exact ⟨l, p, by rw [← h2, he]; exact List.mem_cons_self _ _⟩
          · obtain ⟨l2, p2, hm⟩ := ih a2 rest hrest t he hni
            exact ⟨l2, p2, by rw [← h2]; exact List.mem_cons_of_mem _ hm⟩

/-- C8: no diagnostic emitted by `check_text` derives from an `Accepted`
(`Valid`) match — if the check succeeds, every surviving match was
non-`Valid` — and a surviving `Valid` match reaching the translation step
makes the whole check fail with the explicit panic message instead of
being silently mapped or skipped. -/
theorem c8_accepted_panics (severity : Option Nat) (buffer : List Nat)
    (blocks : List (Nat × Nat)) (typos : List Typo) :
    (∀ diags, check_text severity buffer blocks typos = Except.ok diags →
      ∀ t ∈ typos, Ignores.is_ignored blocks (typoSpan t) = false →
        t.corrections ≠ Status.valid) ∧
    (∀ items, check_str buffer blocks typos = Except.ok items →
      (∃ x ∈ items, (x : Typo × Nat × Nat).1.corrections = Status.valid) →
      check_text severity buffer blocks typos =
        Except.error "unexpected codetypo::Status::Valid") := by
  constructor
  · intro diags hok t ht hni
    unfold check_text at hok
    cases hcs : check_str buffer blocks typos with
    | error e => rw [hcs] at hok; cases hok
    | ok items =>
      rw [hcs] at hok
      obtain ⟨l, p, hm⟩ :=
        check_str_go_surviving buffer blocks typos AccumulatePosition.new items hcs t ht hni
      exact translate_all_ok_no_valid severity items diags hok (t, l, p) hm
  · intro items hcs hex
    unfold check_text
    rw [hcs]
    exact translate_all_valid_error severity items hex

/-- C8 witness: one surviving `Valid` match in `"teh"` makes `check_text`
return the panic error. -/
theorem c8_witness :
    check_text Option.none bufTeh [] [typoValid] =
      Except.error "unexpected codetypo::Status::Valid" :=
  (c8_accepted_panics Option.none bufTeh [] [typoValid]).2 [(typoValid, 0, 0)] rfl
    ⟨(typoValid, 0, 0), List.mem_cons_self _ _, rfl⟩

/-- C10: every diagnostic emitted by `check_text` ends on the line it
starts on, and its end character is the start character plus the byte
length of the matched text, computed in truncating `u32` arithmetic (and
exactly, whenever the sum fits in a `u32`). -/
theorem c10_range_width (severity : Option Nat) (buffer : List Nat)
    (blocks : List (Nat × Nat)) (typos : List Typo) (diags : List Diagnostic)
    (hok : check_text severity buffer blocks typos = Except.ok diags) :
    ∀ d ∈ diags, d.range.stop.line = d.range.start.line ∧
      ∃ t : Typo, (∃ l p, translate_typo severity t l p = Except.ok d) ∧
        d.range.stop.character = u32cast (d.range.start.character + strByteLen t.typo) ∧
        (d.range.start.character + strByteLen t.typo < 4294967296 →
          d.range.stop.character = d.range.start.character + strByteLen t.typo) := by
  intro d hd
  unfold check_text at hok
  cases hcs : check_str buffer blocks typos with
  | error e => rw [hcs] at hok; cases hok
  | ok items =>
    rw [hcs] at hok
    obtain ⟨x, hxmem, hxok⟩ := translate_all_ok_mem severity items diags hok d hd
    have hr := translate_typo_ok_range severity x.1 x.2.1 x.2.2 d hxok
    refine ⟨?_, x.1, ⟨x.2.1, x.2.2, hxok⟩, ?_, ?_⟩
    · rw [hr]; rfl
    · rw [hr]; simp only [mkRange, u32cast]; omega
    · rw [hr]; simp only [mkRange, u32cast]; intro hlt; omega

/-- C10 witness: the diagnostic for the ASCII match `teh` at offset 0
spans characters 0 to 3 on line 0. -/
theorem c10_witness :
    diagTeh.range.stop.line = diagTeh.range.start.line ∧
      ∃ t : Typo, (∃ l p, translate_typo Option.none t l p = Except.ok diagTeh) ∧
        diagTeh.range.stop.character =
          u32cast (diagTeh.range.start.character + strByteLen t.typo) ∧
        (diagTeh.range.start.character + strByteLen t.typo < 4294967296 →
          diagTeh.range.stop.character = diagTeh.range.start.character + strByteLen t.typo) :=
  c10_range_width Option.none bufTeh [] [typoInvalid] [diagTeh] rfl diagTeh
    (List.mem_cons_self _ _)

/-- When every line of a gitignore is a whitelist line, any match is a
whitelist match. -/
theorem gitignore_all_whitelist_matched (gi : Gitignore) (path : Chars)
    (hall : ∀ g ∈ gi, (g : Bool × GlobPat).1 = true)
    (hne : gi.filter (fun g => g.2.is_match path) ≠ []) :
    gitignoreMatched gi path = GMatch.whitelist := by
  unfold gitignoreMatched
  rw [List.getLast?_eq_getLast_of_ne_nil hne]
  dsimp only
  rw [hall _ (List.mem_of_mem_filter (List.getLast_mem hne))]
  rfl

/-- Every line of the override built by `Instance::new` is a whitelist
line (`!name` for the reserved names, `!pattern` for the user patterns). -/
theorem instanceGitignore_all_whitelist (env : Env) (dir : Chars) :
    ∀ g ∈ instanceGitignore env dir, (g : Bool × GlobPat).1 = true := by
  intro g hg
  unfold instanceGitignore at hg
  rcases List.mem_append.mp hg with h | h
  · obtain ⟨y, _, hy⟩ := List.mem_map.mp h
    rw [← hy]
  · obtain ⟨y, _, hy⟩ := List.mem_map.mp h
    rw [← hy]

/-- A file matched by the glob of any reserved configuration file name is
marked ignore by the override of every successfully built instance,
whatever the user extend-exclude patterns are. -/
theorem instance_ignore_of_name_match (env : Env) (dir file n : Chars)
    (hn : n ∈ env.supportedFileNames)
    (hm : (env.nameGlob n).is_match file = true) :
    isIgnoreMatch (instanceGitignore env dir) file = true := by
  have hmem : (true, env.nameGlob n) ∈ instanceGitignore env dir := by
    unfold instanceGitignore
    exact List.mem_append.mpr (Or.inl (List.mem_map.mpr ⟨n, hn, rfl⟩))
  have hfil : (true, env.nameGlob n) ∈
      (instanceGitignore env dir).filter (fun g => g.2.is_match file) :=
    List.mem_filter.mpr ⟨hmem, hm⟩
  have hw := gitignore_all_whitelist_matched (instanceGitignore env dir) file
    (instanceGitignore_all_whitelist env dir) (List.ne_nil_of_mem hfil)
  have hempty : (instanceGitignore env dir).isEmpty = false := by
    cases hgi : instanceGitignore env dir with
    | nil => rw [hgi] at hmem; cases hmem
    | cons a l => rfl
  unfold isIgnoreMatch overrideMatched
  rw [hempty, hw]
  rfl

/-- C1 (amended): a routed file matching the glob of a reserved
configuration file name is always skipped by `workspace_policy` —
`Instance::new` unconditionally registers ignore entries for the reserved
names, so such files are excluded from checking regardless of the user's
extend-exclude configuration. -/
theorem c1_config_excluded (env : Env) (st : BackendState) (uri : Url)
    (file dir n : Chars) (config : Option Chars) (inst : Instance)
    (hconv : uriToFilePath uri = Option.some file)
    (hroute : routerAt st.router (url_path_sanitised uri) = Option.some inst)
    (hnew : Instance.new env dir config = Except.ok inst)
    (hn : n ∈ env.supportedFileNames)
    (hm : (env.nameGlob n).is_match file = true) :
    workspace_policy st uri = Option.none := by
  have hinst : inst.ignores = instanceGitignore env dir := by
    unfold Instance.new at hnew
    by_cases hf : env.instanceNewFails dir = true
    · rw [if_pos hf] at hnew; cases hnew
    · rw [if_neg hf] at hnew
      injection hnew with h2
      rw [← h2]
  unfold workspace_policy
  rw [hconv]
  dsimp only
  rw [hroute]
  dsimp only
  rw [hinst, instance_ignore_of_name_match env dir file n hn hm]
  rfl

/-- C1 counterexample: with no user extend-exclude patterns at all, the
document `/proj/codetypo.toml` — whose path matches the reserved name
`codetypo.toml` — is excluded by `workspace_policy` (the claim says it is
never excluded). -/
theorem c1_counterexample :
    env0.extendExclude dir0 = [] ∧
    (env0.nameGlob ("codetypo.toml".toList)).is_match ("/proj/codetypo.toml".toList) = true ∧
    (workspace_policy st1 uri1).isNone = true :=
  ⟨rfl, rfl, rfl⟩

/-- C1 witness: the amended theorem at the concrete fixture. -/
theorem c1_witness : workspace_policy st1 uri1 = Option.none :=
  c1_config_excluded env0 st1 uri1 ("/proj/codetypo.toml".toList) dir0
    ("codetypo.toml".toList) Option.none inst0 rfl rfl rfl (by decide) rfl

/-- C2 (amended): a failed rebuild does not keep the previous route
table: `update_router` discards the table before touching any folder, so
its outcome — error and final table alike — is independent of the table
in place before the rebuild, and when the first folder's URI is not
convertible the table is left empty. -/
theorem c2_no_rollback (env : Env) (st : BackendState) (r1 r2 : Router)
    (f : WorkspaceFolder) (fs : List WorkspaceFolder) :
    (update_router env { st with router := r1 }).2.router =
      (update_router env { st with router := r2 }).2.router ∧
    (update_router env { st with router := r1 }).1 =
      (update_router env { st with router := r2 }).1 ∧
    (uriToFilePath f.uri = Option.none →
      (update_router env { st with workspace_folders := f :: fs }).2.router = []) := by
  refine ⟨rfl, rfl, ?_⟩
  intro hbad
  unfold update_router
  dsimp only
  simp only [updateRouterGo, hbad]

/-- C2 counterexample: a state whose rebuild succeeded holds two routes;
rebuilding with a bad folder fails and leaves zero routes — not the two
that were in place before the rebuild began. -/
theorem c2_counterexample :
    ((set_workspace_folders env0 st0 [folderA]).2.router).length = 2 ∧
    (set_workspace_folders env0 (set_workspace_folders env0 st0 [folderA]).2
      [folderBad]).1.isSome = true ∧
    ((set_workspace_folders env0 (set_workspace_folders env0 st0 [folderA]).2
      [folderBad]).2.router).length = 0 :=
  ⟨rfl, rfl, rfl⟩

/-- C2 witness: the amended theorem's failing-first-folder case at the
concrete fixture. -/
theorem c2_witness :
    (update_router env0 { st0 with workspace_folders := [folderBad] }).2.router = [] :=
  (c2_no_rollback env0 st0 [] [] folderBad []).2.2 rfl

/-- A successful `insert_instance` appends the new route. -/
theorem insert_instance_ok (env : Env) (r : Router) (route path : Chars)
    (config : Option Chars) (r2 : Router)
    (h : insert_instance env r route path config = Except.ok r2) :
    ∃ inst, Instance.new env path config = Except.ok inst ∧ r2 = r ++ [(route, inst)] := by
  unfold insert_instance at h
  cases hn : Instance.new env path config with
  | error e => rw [hn] at h; cases h
  | ok inst =>
    rw [hn] at h
    dsimp only at h
    by_cases hc : (r.any fun q => q.1 == route) = true
    · rw [if_pos hc] at h; cases h
    · rw [if_neg hc] at h
      injection h with h2
      exact ⟨inst, rfl, h2.symm⟩

/-- After a successful rebuild loop the catch-all route is in the table. -/
theorem updateRouterGo_ok_catchall (env : Env) (config : Option Chars) :
    ∀ (fs : List WorkspaceFolder) (r r2 : Router),
      updateRouterGo env config fs r = (Option.none, r2) →
      ∃ i, (catchAllSuffix, i) ∈ r2 := by
  intro fs
  induction fs with
  | nil =>
    intro r r2 h
    simp only [updateRouterGo] at h
    cases hins : insert_instance env r catchAllSuffix [ '/' ] config with
    | error e =>
      rw [hins] at h
      exact absurd (congrArg Prod.fst h) (by simp)
    | ok r3 =>
      rw [hins] at h
      obtain ⟨inst, _, hr3⟩ := insert_instance_ok env r catchAllSuffix [ '/' ] config r3 hins
      have hr2 : r3 = r2 := congrArg Prod.snd h
      refine ⟨inst, ?_⟩
      rw [← hr2, hr3]
      exact List.mem_append.mpr (Or.inr (List.mem_cons_self _ _))
  | cons f fs2 ih =>
    intro r r2 h
    simp only [updateRouterGo] at h
    cases hconv : uriToFilePath f.uri with
    | none =>
      rw [hconv] at h
      exact absurd (congrArg Prod.fst h) (by simp)
    | some path =>
      rw [hconv] at h
      dsimp only at h
      cases hins : insert_instance env r (url_path_sanitised f.uri ++ catchAllSuffix)
          path config with
      | error e =>
        rw [hins] at h
        exact absurd (congrArg Prod.fst h) (by simp)
      | ok r3 =>
        rw [hins] at h
        dsimp only at h
        exact ih r3 r2 h

/-- A nonempty candidate list always yields a most specific route. -/
theorem pickLongest_isSome : ∀ (l : List (Chars × Instance)), l ≠ [] →
    (pickLongest l).isSome = true := by
  intro l
  induction l with
  | nil => intro h; exact absurd rfl h
  | cons e es _ =>
    intro _
    simp only [pickLongest]
    cases pickLongest es with
    | none => rfl
    | some e2 =>
      dsimp only
      split
      · rfl
      · rfl

/-- The catch-all route matches every path of the form `/rest` with
nonempty `rest`. -/
theorem routeMatches_catchall (path : Chars) (rest : List Char)
    (hpath : path = '/' :: rest) (hne : rest ≠ []) :
    routeMatches catchAllSuffix path = true := by
  subst hpath
  have h0 : routeMatches catchAllSuffix ( '/' :: rest) =
      (List.isPrefixOf ([] ++ [ '/' ]) ( '/' :: rest) &&
        decide (0 + 1 < ( '/' :: rest).length)) := rfl
  rw [h0]
  have h5 : List.isPrefixOf ([] ++ [ '/' ]) ( '/' :: rest) = true := by
    simp [List.isPrefixOf_cons₂, List.isPrefixOf_nil_left]
  rw [h5, Bool.true_and, decide_eq_true_eq, List.length_cons]
  have := List.length_pos.mpr hne
  omega

/-- C3 (amended): after any successful rebuild — any folder list,
including the empty one — every path strictly below the filesystem root
(`/rest` with nonempty `rest`) resolves to some instance via the implicit
catch-all route; the bare root `/` itself is the one syntactically valid
absolute path whose lookup fails (see the counterexample). -/
theorem c3_catchall_resolves (env : Env) (st st2 : BackendState)
    (path : Chars) (rest : List Char)
    (hok : update_router env st = (Option.none, st2))
    (hpath : path = '/' :: rest) (hne : rest ≠ []) :
    (routerAt st2.router path).isSome = true := by
  unfold update_router at hok
  have h1 : (updateRouterGo env st.config st.workspace_folders []).1 = Option.none :=
    congrArg Prod.fst hok
  have h2 : st2.router = (updateRouterGo env st.config st.workspace_folders []).2 := by
    have h3 := congrArg BackendState.router (congrArg Prod.snd hok)
    rw [← h3]
  have h4 : updateRouterGo env st.config st.workspace_folders [] =
      (Option.none, (updateRouterGo env st.config st.workspace_folders []).2) := by
    rw [← h1]
  obtain ⟨i, hmem⟩ := updateRouterGo_ok_catchall env st.config st.workspace_folders []
    (updateRouterGo env st.config st.workspace_folders []).2 h4
  have hfil : (catchAllSuffix, i) ∈ st2.router.filter (fun e => routeMatches e.1 path) :=
    List.mem_filter.mpr ⟨by rw [h2]; exact hmem, routeMatches_catchall path rest hpath hne⟩
  unfold routerAt
  have hp := pickLongest_isSome _ (List.ne_nil_of_mem hfil)
  cases hq : pickLongest (st2.router.filter (fun e => routeMatches e.1 path)) with
  | none => rw [hq] at hp; cases hp
  | some e => rfl

/-- C3 counterexample: rebuilding with the empty folder list succeeds and
the table holds exactly the catch-all, yet looking up the syntactically
valid absolute path `/` takes the error branch — the catch-all consumes
at least one character. -/
theorem c3_counterexample :
    (update_router env0 st0).1 = Option.none ∧
    ((update_router env0 st0).2.router).length = 1 ∧
    (routerAt (update_router env0 st0).2.router [ '/' ]).isNone = true :=
  ⟨rfl, rfl, rfl⟩

/-- C3 witness: the amended theorem resolving `/x` after a rebuild with
no folders. -/
theorem c3_witness :
    (routerAt (update_router env0 st0).2.router ( '/' :: [ 'x' ])).isSome = true :=
  c3_catchall_resolves env0 st0 (update_router env0 st0).2 ( '/' :: [ 'x' ]) [ 'x' ]
    rfl rfl (by decide)

/-- C9: with routes for the nested folders `/a` and `/a/b` plus the
catch-all, the document `/a/b/file.txt` resolves to the `/a/b` instance
whatever the three instances hold; and the table `set_workspace_folders`
builds for these folders has exactly those routes and resolves the
document to the instance rooted at `/a/b`, never the one rooted at `/a`. -/
theorem c9_longest_match :
    (∀ iA iAB iR : Instance,
      routerAt [(routeA, iA), (routeAB, iAB), (catchAllSuffix, iR)] doc9 =
        Option.some iAB) ∧
    (set_workspace_folders env0 st0 [folderA, folderAB]).1 = Option.none ∧
    ((set_workspace_folders env0 st0 [folderA, folderAB]).2.router).map Prod.fst =
      [routeA, routeAB, catchAllSuffix] ∧
    ((routerAt (set_workspace_folders env0 st0 [folderA, folderAB]).2.router doc9).map
      Instance.root) = Option.some ("/a/b".toList) ∧
    ¬ ((routerAt (set_workspace_folders env0 st0 [folderA, folderAB]).2.router doc9).map
      Instance.root) = Option.some ("/a".toList) :=
  ⟨fun _ _ _ => rfl, rfl, rfl, rfl, by decide⟩

end CodetypoLsp
